import Mathlib

/-!
Verification of the resilient API request hook of the trading_platform
repository (`src/frontend/src/hooks/useApi.ts`).

The executor is shallowly embedded below.  JavaScript/React features that
matter for its behaviour are modelled explicitly:

* JS values carry truthiness (`jsTruthy`), since the source uses `||` and
  `cond ? a : b` on possibly-falsy data (`responseData.detail || '...'`,
  `body ? JSON.stringify(body) : undefined`, `!apiError.status`).
* `String.prototype.replace` with a string pattern replaces only the first
  occurrence (`listReplaceFirst`).
* React state (`useState`) is a store written through setters; a value of
  that state read inside the `useCallback` closure is the snapshot captured
  when the closure was created.  The retry guard reads `retryCount` from the
  closure, and the recursive `return execute(...)` re-enters the very same
  closure, so the guard sees the same captured value on every attempt.  The
  embedding therefore threads two distinct things: the store (`Store`) and
  the captured snapshot (`captured`), which stays constant along a chain.
* The sequence of fetch attempts is driven by an environment
  `responses : Nat → FetchOutcome` giving the outcome of the n-th fetch.
  Response bodies that pass the content-type check are modelled as already
  parsed JSON values (no claim involves a JSON parse failure).
* `async`/`await` recursion is modelled with fuel: `ExecResult.outOfFuel`
  means the chain is still running after the given number of attempts.
-/

namespace UseApi

/-- A JavaScript value, as far as the hook inspects one: JSON-like data.
Object field lists are assumed to have pairwise distinct keys. -/
inductive JSValue where
  | null
  | bool (b : Bool)
  | num (n : Int)
  | str (s : String)
  | obj (fields : List (String × JSValue))

/-- JS truthiness of a value (`undefined` is handled by `Option` at use
sites): `null`, `false`, `0` and `""` are falsy; objects are truthy. -/
def jsTruthy : JSValue → Bool
  | .null => false
  | .bool b => b
  | .num n => if n = 0 then false else true
  | .str s => if s = "" then false else true
  | .obj _ => true

/-- First binding of a key in a JS object's field list. -/
def lookupField : List (String × JSValue) → String → Option JSValue
  | [], _ => none
  | (k, v) :: rest, key => if k = key then some v else lookupField rest key

/-- JS property access `v.key`: `none` models `undefined`. -/
def getField : JSValue → String → Option JSValue
  | .obj fields, key => lookupField fields key
  | _, _ => none

/-- JS `a || b` where `a` may be `undefined`: yields `a` when truthy,
otherwise the default. -/
def jsOr (v : Option JSValue) (dflt : JSValue) : JSValue :=
  match v with
  | none => dflt
  | some v => if jsTruthy v then v else dflt

/-- Does the character list `s` start with `pat`? -/
def startsWith : List Char → List Char → Bool
  | [], _ => true
  | _ :: _, [] => false
  | p :: ps, c :: cs => if p = c then startsWith ps cs else false

/-- Does `pat` occur as a contiguous substring of `s`
(JS `String.prototype.includes`)? -/
def listOccurs : List Char → List Char → Bool
  | [], pat => startsWith pat []
  | c :: rest, pat => startsWith pat (c :: rest) || listOccurs rest pat

/-- JS `s.replace(pat, repl)` with a string pattern: only the first
occurrence of `pat` is replaced; without an occurrence `s` is unchanged.
(The model assumes `repl` contains no `$`-replacement patterns, which holds
for the path-parameter values considered here.) -/
def listReplaceFirst : List Char → List Char → List Char → List Char
  | [], pat, repl => if startsWith pat [] then repl else []
  | c :: rest, pat, repl =>
    if startsWith pat (c :: rest) then repl ++ (c :: rest).drop pat.length
    else c :: listReplaceFirst rest pat repl

/-- String version of `listReplaceFirst`. -/
def replaceFirst (s pat repl : String) : String :=
  String.mk (listReplaceFirst s.data pat.data repl.data)

/-- `String.prototype.includes` on strings. -/
def containsSubstr (s pat : String) : Bool :=
  listOccurs s.data pat.data

/-- URL resolution of `execute` (useApi.ts lines 38-43):
`Object.entries(pathParams).forEach(([key, value]) => finalUrl =
finalUrl.replace(`:key`, value))`.  Entries are visited in insertion order,
each replacing the first occurrence of its `:key` pattern. -/
def resolveUrl (url : String) (pathParams : List (String × String)) : String :=
  pathParams.foldl (fun acc kv => replaceFirst acc (":" ++ kv.1) kv.2) url

/-- The content-type gate (useApi.ts lines 59-62):
`!contentType || !contentType.includes('application/json')` rejects.  `none`
models a missing header (`headers.get` returned `null`); the empty string is
falsy in JS and is also rejected. -/
def isJsonContentType : Option String → Bool
  | none => false
  | some ct => if ct = "" then false else containsSubstr ct "application/json"

/-- The structured error shape thrown by `execute` (`APIError` of
`src/frontend/src/types/api`): network failures and format failures are
plain `Error`s whose `status`/`code` are `undefined` (`none`). -/
structure APIError where
  message : JSValue
  status : Option Nat
  code : Option JSValue

/-- The retry discriminator of the catch block (useApi.ts lines 83-86):
`(apiError.status && apiError.status >= 500) || !apiError.status`.
An absent status is retryable; a present status of 0 is falsy in JS, hence
also retryable; otherwise retryable means status ≥ 500. -/
def isRetryable : Option Nat → Bool
  | none => true
  | some s => if s = 0 then true else if 500 ≤ s then true else false

/-- The structured error built from a non-2xx JSON response (useApi.ts
lines 66-72): `detail`/`code` with JS `||` fallbacks. -/
def mkHttpError (status : Nat) (body : JSValue) : APIError :=
  { message := jsOr (getField body "detail") (.str "An error occurred")
    status := some status
    code := some (jsOr (getField body "code") (.str "UNKNOWN_ERROR")) }

/-- The outcome the environment hands to one fetch attempt: either the
fetch promise rejects (no response at all), or a response arrives with a
status, an optional `content-type` header and a (parsed) body. -/
inductive FetchOutcome where
  | networkFailure (message : String)
  | response (status : Nat) (contentType : Option String) (body : JSValue)

/-- What one attempt of the try block produces from its fetch outcome
(useApi.ts lines 50-77): the content-type check, then `response.ok`
(status 200-299), then either the parsed payload or the structured error. -/
def attemptOutcome : FetchOutcome → Except APIError JSValue
  | .networkFailure msg => .error { message := .str msg, status := none, code := none }
  | .response status ct body =>
    if isJsonContentType ct = false then
      .error { message := .str "Invalid response format", status := none, code := none }
    else if 200 ≤ status ∧ status ≤ 299 then .ok body
    else .error (mkHttpError status body)

/-- The `useApi` options with their source defaults (useApi.ts lines 13-18). -/
structure Config where
  maxRetries : Nat := 3
  retryDelay : Nat := 1000
  showLoadingToast : Bool := true
  showErrorToast : Bool := true

/-- `useApi` called with no options. -/
def defaultConfig : Config := {}

/-- The four `useState` cells of the hook (useApi.ts lines 20-23). -/
structure Store where
  data : Option JSValue
  isLoading : Bool
  error : Option APIError
  retryCount : Nat

/-- The initial values of the four state cells. -/
def initialStore : Store :=
  { data := none, isLoading := false, error := none, retryCount := 0 }

/-- Observable calls into the toast library.  `toast.loading` yields a
handle (modelled as a fresh number); `toast.error(msg, id)` converts the
toast with that handle (or creates a new toast when the handle is absent);
`toast.dismiss` removes a toast. -/
inductive ToastEvent where
  | loading (id : Nat)
  | error (id : Option Nat) (message : JSValue)
  | dismiss (id : Nat)

/-- One HTTP request as `fetch` is invoked with it (useApi.ts lines 50-57).
`body = none` means no body is sent; `body = some v` means the JSON
encoding of `v` is sent. -/
structure Request where
  url : String
  method : String
  contentTypeHeader : String
  credentials : String
  body : Option JSValue

/-- `body ? JSON.stringify(body) : undefined`: the body is sent only when
it is supplied and truthy. -/
def sentBody : Option JSValue → Option JSValue
  | none => none
  | some b => if jsTruthy b then some b else none

/-- The request built by one attempt from the call's arguments. -/
def builtRequest (url method : String) (body : Option JSValue)
    (pathParams : List (String × String)) : Request :=
  { url := resolveUrl url pathParams
    method := method
    contentTypeHeader := "application/json"
    credentials := "include"
    body := sentBody body }

/-- Everything a chain accumulates besides its result: the store, the
toast trace, a fresh-handle counter, the number of fetch attempts made,
the retry delays awaited (in order) and the requests issued (in order). -/
structure RunState where
  store : Store
  trace : List ToastEvent
  nextToastId : Nat
  attempts : Nat
  delays : List Nat
  requests : List Request

/-- How a chain can leave a given amount of fuel: settled successfully,
settled by raising, or still running (every fuel unit funds one attempt). -/
inductive ExecResult where
  | ok (payload : JSValue)
  | raised (e : APIError)
  | outOfFuel

/-- The `finally` block's toast clause (useApi.ts lines 104-107):
`if (loadingToastId && !showErrorToast) toast.dismiss(loadingToastId)`. -/
def finallyDismiss (loadingToastId : Option Nat) (showErrorToast : Bool)
    (trace : List ToastEvent) : List ToastEvent :=
  match loadingToastId, showErrorToast with
  | some lid, false => trace ++ [ToastEvent.dismiss lid]
  | _, _ => trace

/-- `setIsLoading(false)` plus `finallyDismiss`: the `finally` block as it
applies to a settled call. -/
def applyFinally (showErrorToast : Bool) (loadingToastId : Option Nat)
    (rs : RunState) : RunState :=
  { rs with store := { rs.store with isLoading := false }
            trace := finallyDismiss loadingToastId showErrorToast rs.trace }

/-- The tail of the catch block once no retry happens (useApi.ts lines
94-101): error toast or silent dismissal, then `throw apiError`, then the
`finally` block. -/
def settleFailure (cfg : Config) (loadingToastId : Option Nat) (e : APIError)
    (rs : RunState) : ExecResult × RunState :=
  let trace1 :=
    if cfg.showErrorToast then
      rs.trace ++ [ToastEvent.error loadingToastId (jsOr (some e.message) (.str "An error occurred"))]
    else
      match loadingToastId with
      | some lid => rs.trace ++ [ToastEvent.dismiss lid]
      | none => rs.trace
  (ExecResult.raised e,
    applyFinally cfg.showErrorToast loadingToastId { rs with trace := trace1 })

/-- The loading-toast handle of an attempt starting from `rs`
(useApi.ts lines 46-48). -/
def loadingId (cfg : Config) (rs : RunState) : Option Nat :=
  if cfg.showLoadingToast then some rs.nextToastId else none

/-- The prefix of one attempt (useApi.ts lines 31-57): `setIsLoading(true)`,
`setError(null)`, the optional loading toast, and the `fetch` call with the
request built from the (unchanged) call arguments. -/
def attemptStart (cfg : Config) (url method : String) (body : Option JSValue)
    (pathParams : List (String × String)) (rs : RunState) : RunState :=
  { store := { rs.store with isLoading := true, error := none }
    trace := if cfg.showLoadingToast then rs.trace ++ [ToastEvent.loading rs.nextToastId]
             else rs.trace
    nextToastId := if cfg.showLoadingToast then rs.nextToastId + 1 else rs.nextToastId
    attempts := rs.attempts + 1
    delays := rs.delays
    requests := rs.requests ++ [builtRequest url method body pathParams] }

/-- `setData(responseData); setRetryCount(0)` (useApi.ts lines 75-76). -/
def successState (payload : JSValue) (rs : RunState) : RunState :=
  { rs with store := { rs.store with data := some payload, retryCount := 0 } }

/-- `setError(apiError)` (useApi.ts line 81). -/
def errorState (e : APIError) (rs : RunState) : RunState :=
  { rs with store := { rs.store with error := some e } }

/-- `setRetryCount(prev => prev + 1)` (a functional updater, so it reads
the live store) followed by the awaited `retryDelay` (useApi.ts lines
88-89). -/
def retryState (cfg : Config) (rs : RunState) : RunState :=
  { rs with store := { rs.store with retryCount := rs.store.retryCount + 1 }
            delays := rs.delays ++ [cfg.retryDelay] }

/-- The body of `execute` (useApi.ts lines 25-108), one attempt per unit of
fuel.  `captured` is the `retryCount` value the `useCallback` closure
captured at its creating render: the recursive `return execute(...)`
re-enters the same closure, so the guard compares this same snapshot on
every attempt, while `setRetryCount` (with a functional updater) keeps
writing through to the store.  On the retry path the outer `finally` block
runs once the inner chain settles; in the browser it runs as soon as the
inner call first suspends, but the two orders differ only in when the outer
loading toast is dismissed and in a transient `isLoading` flicker, neither
of which the final store, the attempt count, or the per-attempt toast sets
depend on. -/
def executeChain (cfg : Config) (captured : Nat) (url method : String)
    (body : Option JSValue) (pathParams : List (String × String))
    (responses : Nat → FetchOutcome) : Nat → Nat → RunState → ExecResult × RunState
  | _attempt, 0, rs => (ExecResult.outOfFuel, rs)
  | attempt, fuel + 1, rs =>
    let rs1 := attemptStart cfg url method body pathParams rs
    match attemptOutcome (responses attempt) with
    | Except.ok payload =>
      -- setData(responseData); setRetryCount(0); return responseData; finally
      (ExecResult.ok payload,
        applyFinally cfg.showErrorToast (loadingId cfg rs) (successState payload rs1))
    | Except.error e =>
      if isRetryable e.status && decide (captured < cfg.maxRetries) then
        -- the retry path: same closure, same `captured`, next response
        match executeChain cfg captured url method body pathParams responses
            (attempt + 1) fuel (retryState cfg (errorState e rs1)) with
        | (ExecResult.outOfFuel, rs4) => (ExecResult.outOfFuel, rs4)
        | (ExecResult.ok p, rs4) =>
          (ExecResult.ok p, applyFinally cfg.showErrorToast (loadingId cfg rs) rs4)
        | (ExecResult.raised e2, rs4) =>
          (ExecResult.raised e2, applyFinally cfg.showErrorToast (loadingId cfg rs) rs4)
      else
        settleFailure cfg (loadingId cfg rs) e (errorState e rs1)

/-- A fresh chain: `execute` invoked from a render whose closure captured
`captured` as the current retry count, against an environment `responses`,
starting from store `st0`. -/
def execute (cfg : Config) (captured : Nat) (url method : String)
    (body : Option JSValue) (pathParams : List (String × String))
    (responses : Nat → FetchOutcome) (st0 : Store) (fuel : Nat) :
    ExecResult × RunState :=
  executeChain cfg captured url method body pathParams responses 0 fuel
    { store := st0, trace := [], nextToastId := 0, attempts := 0
      delays := [], requests := [] }

/-!
## Invariants of the execution chain
-/

/-! ### Characterisation of the finally-block dismissal -/

theorem finallyDismiss_showError (lid : Option Nat) (tr : List ToastEvent) :
    finallyDismiss lid true tr = tr := by
  cases lid <;> rfl

theorem finallyDismiss_none (set : Bool) (tr : List ToastEvent) :
    finallyDismiss none set tr = tr := by
  cases set <;> rfl

theorem finallyDismiss_some_false (l : Nat) (tr : List ToastEvent) :
    finallyDismiss (some l) false tr = tr ++ [ToastEvent.dismiss l] := rfl

theorem mem_finallyDismiss (ev : ToastEvent) (lid : Option Nat) (set : Bool)
    (tr : List ToastEvent) (h : ev ∈ tr) : ev ∈ finallyDismiss lid set tr := by
  cases lid with
  | none => rw [finallyDismiss_none]; exact h
  | some l =>
    cases set with
    | true => rw [finallyDismiss_showError]; exact h
    | false => rw [finallyDismiss_some_false]; exact List.mem_append_left _ h

/-! ### Chain invariants -/

theorem chain_attempts_mono (cfg : Config) (captured : Nat) (u m : String)
    (b : Option JSValue) (ps : List (String × String)) (resp : Nat → FetchOutcome) :
    ∀ fuel attempt rs,
      rs.attempts ≤ (executeChain cfg captured u m b ps resp attempt fuel rs).2.attempts := by
  intro fuel
  induction fuel with
  | zero => intro attempt rs; exact Nat.le_refl _
  | succ f ih =>
    intro attempt rs
    simp only [executeChain]
    cases hout : attemptOutcome (resp attempt) with
    | ok payload =>
      simp [applyFinally, successState, attemptStart]
    | error e =>
      by_cases hg : (isRetryable e.status && decide (captured < cfg.maxRetries)) = true
      · simp only [hg, if_true]
        split
        next rs4 heq =>
          have h := le_trans (ih (attempt + 1) _)
            (le_of_eq (congrArg (fun z => z.2.attempts) heq))
          simp [retryState, errorState, attemptStart] at h
          simp only []
          omega
        next p rs4 heq =>
          have h := le_trans (ih (attempt + 1) _)
            (le_of_eq (congrArg (fun z => z.2.attempts) heq))
          simp [retryState, errorState, attemptStart] at h
          simp [applyFinally]
          omega
        next e2 rs4 heq =>
          have h := le_trans (ih (attempt + 1) _)
            (le_of_eq (congrArg (fun z => z.2.attempts) heq))
          simp [retryState, errorState, attemptStart] at h
          simp [applyFinally]
          omega
      · simp only [hg, if_false]
        simp [settleFailure, applyFinally, errorState, attemptStart]

theorem chain_attempts_succ (cfg : Config) (captured : Nat) (u m : String)
    (b : Option JSValue) (ps : List (String × String)) (resp : Nat → FetchOutcome)
    (fuel attempt : Nat) (rs : RunState) (hfuel : 1 ≤ fuel) :
    rs.attempts + 1 ≤ (executeChain cfg captured u m b ps resp attempt fuel rs).2.attempts := by
  cases fuel with
  | zero => omega
  | succ f =>
    simp only [executeChain]
    cases hout : attemptOutcome (resp attempt) with
    | ok payload =>
      simp [applyFinally, successState, attemptStart]
    | error e =>
      by_cases hg : (isRetryable e.status && decide (captured < cfg.maxRetries)) = true
      · simp only [hg, if_true]
        split
        next rs4 heq =>
          have h := le_trans (chain_attempts_mono cfg captured u m b ps resp f (attempt + 1) _)
            (le_of_eq (congrArg (fun z => z.2.attempts) heq))
          simp [retryState, errorState, attemptStart] at h
          simp only []
          omega
        next p rs4 heq =>
          have h := le_trans (chain_attempts_mono cfg captured u m b ps resp f (attempt + 1) _)
            (le_of_eq (congrArg (fun z => z.2.attempts) heq))
          simp [retryState, errorState, attemptStart] at h
          simp [applyFinally]
          omega
        next e2 rs4 heq =>
          have h := le_trans (chain_attempts_mono cfg captured u m b ps resp f (attempt + 1) _)
            (le_of_eq (congrArg (fun z => z.2.attempts) heq))
          simp [retryState, errorState, attemptStart] at h
          simp [applyFinally]
          omega
      · simp only [hg, if_false]
        simp [settleFailure, applyFinally, errorState, attemptStart]

theorem chain_diverges (cfg : Config) (captured : Nat) (u m : String)
    (b : Option JSValue) (ps : List (String × String)) (resp : Nat → FetchOutcome)
    (hcap : captured < cfg.maxRetries)
    (herr : ∀ n, ∃ e, attemptOutcome (resp n) = Except.error e ∧ isRetryable e.status = true) :
    ∀ fuel attempt rs,
      (executeChain cfg captured u m b ps resp attempt fuel rs).1 = ExecResult.outOfFuel ∧
      (executeChain cfg captured u m b ps resp attempt fuel rs).2.attempts = rs.attempts + fuel := by
  intro fuel
  induction fuel with
  | zero => intro attempt rs; exact ⟨rfl, rfl⟩
  | succ f ih =>
    intro attempt rs
    obtain ⟨e, he, hr⟩ := herr attempt
    have hg : (isRetryable e.status && decide (captured < cfg.maxRetries)) = true := by
      simp [hr, hcap]
    simp only [executeChain, he, hg, if_true]
    split
    next rs4 heq =>
      have h := ((ih (attempt + 1) _).2).symm.trans (congrArg (fun z => z.2.attempts) heq)
      simp [retryState, errorState, attemptStart] at h
      refine ⟨rfl, ?_⟩
      simp only []
      omega
    next p rs4 heq =>
      have h := ((ih (attempt + 1) _).1).symm.trans (congrArg (fun z => z.1) heq)
      simp at h
    next e2 rs4 heq =>
      have h := ((ih (attempt + 1) _).1).symm.trans (congrArg (fun z => z.1) heq)
      simp at h
theorem chain_requests (cfg : Config) (captured : Nat) (u m : String)
    (b : Option JSValue) (ps : List (String × String)) (resp : Nat → FetchOutcome) :
    ∀ fuel attempt rs r, r ∈ (executeChain cfg captured u m b ps resp attempt fuel rs).2.requests →
      r ∈ rs.requests ∨ r = builtRequest u m b ps := by
  intro fuel
  induction fuel with
  | zero => intro attempt rs r hmem; exact Or.inl hmem
  | succ f ih =>
    intro attempt rs r hmem
    simp only [executeChain] at hmem
    cases hout : attemptOutcome (resp attempt) with
    | ok payload =>
      simp only [hout] at hmem
      simp [applyFinally, successState, attemptStart] at hmem
      rcases hmem with h | h
      · exact Or.inl h
      · exact Or.inr h
    | error e =>
      simp only [hout] at hmem
      by_cases hg : (isRetryable e.status && decide (captured < cfg.maxRetries)) = true
      · simp only [hg, if_true] at hmem
        split at hmem
        next rs4 heq =>
          simp only [] at hmem
          rw [← congrArg (fun z => z.2.requests) heq] at hmem
          rcases ih (attempt + 1) _ r hmem with h | h
          · simp [retryState, errorState, attemptStart] at h
            rcases h with h | h
            · exact Or.inl h
            · exact Or.inr h
          · exact Or.inr h
        next p rs4 heq =>
          simp only [applyFinally] at hmem
          rw [← congrArg (fun z => z.2.requests) heq] at hmem
          rcases ih (attempt + 1) _ r hmem with h | h
          · simp [retryState, errorState, attemptStart] at h
            rcases h with h | h
            · exact Or.inl h
            · exact Or.inr h
          · exact Or.inr h
        next e2 rs4 heq =>
          simp only [applyFinally] at hmem
          rw [← congrArg (fun z => z.2.requests) heq] at hmem
          rcases ih (attempt + 1) _ r hmem with h | h
          · simp [retryState, errorState, attemptStart] at h
            rcases h with h | h
            · exact Or.inl h
            · exact Or.inr h
          · exact Or.inr h
      · simp only [hg, if_false] at hmem
        simp [settleFailure, applyFinally, errorState, attemptStart,
          mem_finallyDismiss] at hmem
        rcases hmem with h | h
        · exact Or.inl h
        · exact Or.inr h

theorem chain_trace_mono (cfg : Config) (captured : Nat) (u m : String)
    (b : Option JSValue) (ps : List (String × String)) (resp : Nat → FetchOutcome) :
    ∀ fuel attempt rs ev, ev ∈ rs.trace →
      ev ∈ (executeChain cfg captured u m b ps resp attempt fuel rs).2.trace := by
  intro fuel
  induction fuel with
  | zero => intro attempt rs ev hev; exact hev
  | succ f ih =>
    intro attempt rs ev hev
    simp only [executeChain]
    cases hout : attemptOutcome (resp attempt) with
    | ok payload =>
      simp only [hout]
      simp only [applyFinally, successState]
      apply mem_finallyDismiss
      simp [attemptStart]
      split <;> simp [hev]
    | error e =>
      simp only [hout]
      by_cases hg : (isRetryable e.status && decide (captured < cfg.maxRetries)) = true
      · simp only [hg, if_true]
        have hev3 : ev ∈ (retryState cfg (errorState e (attemptStart cfg u m b ps rs))).trace := by
          simp [retryState, errorState, attemptStart]
          split <;> simp [hev]
        have hinner := ih (attempt + 1) _ ev hev3
        split
        next rs4 heq =>
          simp only []
          rw [← congrArg (fun z => z.2.trace) heq]
          exact hinner
        next p rs4 heq =>
          simp only [applyFinally]
          apply mem_finallyDismiss
          rw [← congrArg (fun z => z.2.trace) heq]
          exact hinner
        next e2 rs4 heq =>
          simp only [applyFinally]
          apply mem_finallyDismiss
          rw [← congrArg (fun z => z.2.trace) heq]
          exact hinner
      · simp only [hg, if_false]
        simp only [settleFailure, applyFinally]
        apply mem_finallyDismiss
        by_cases hset : cfg.showErrorToast
        · simp [hset, errorState, attemptStart]
          split <;> simp [hev]
        · simp only [Bool.not_eq_true] at hset
          simp only [hset, Bool.false_eq_true, if_false]
          have : ev ∈ (errorState e (attemptStart cfg u m b ps rs)).trace := by
            simp [errorState, attemptStart]
            split <;> simp [hev]
          cases hlid : loadingId cfg rs with
          | none => simpa using this
          | some l => simp only []; exact List.mem_append_left _ this

theorem chain_ok_store (cfg : Config) (captured : Nat) (u m : String)
    (b : Option JSValue) (ps : List (String × String)) (resp : Nat → FetchOutcome) :
    ∀ fuel attempt rs p,
      (executeChain cfg captured u m b ps resp attempt fuel rs).1 = ExecResult.ok p →
      (executeChain cfg captured u m b ps resp attempt fuel rs).2.store.data = some p ∧
      (executeChain cfg captured u m b ps resp attempt fuel rs).2.store.retryCount = 0 ∧
      (executeChain cfg captured u m b ps resp attempt fuel rs).2.store.error = none := by
  intro fuel
  induction fuel with
  | zero => intro attempt rs p hres; simp [executeChain] at hres
  | succ f ih =>
    intro attempt rs p hres
    simp only [executeChain] at hres ⊢
    cases hout : attemptOutcome (resp attempt) with
    | ok payload =>
      simp only [hout] at hres ⊢
      have hp : payload = p := by simpa using hres
      subst hp
      simp [applyFinally, successState, attemptStart]
    | error e =>
      simp only [hout] at hres ⊢
      by_cases hg : (isRetryable e.status && decide (captured < cfg.maxRetries)) = true
      · simp only [hg, if_true] at hres ⊢
        split at hres
        next rs4 heq => simp at hres
        next p2 rs4 heq =>
          have hp : p2 = p := by simpa using hres
          subst hp
          have hih := ih (attempt + 1) _ p2 (by rw [heq])
          rw [heq] at hih
          simp only [] at hih
          simp [applyFinally, hih.1, hih.2.1, hih.2.2]
        next e2 rs4 heq => simp at hres
      · simp only [hg, if_false] at hres
        simp [settleFailure, applyFinally] at hres
theorem mem_finallyDismiss_elim (ev : ToastEvent) (lid : Option Nat) (set : Bool)
    (tr : List ToastEvent) (h : ev ∈ finallyDismiss lid set tr) :
    ev ∈ tr ∨ (set = false ∧ ∃ l, lid = some l ∧ ev = ToastEvent.dismiss l) := by
  cases lid with
  | none => rw [finallyDismiss_none] at h; exact Or.inl h
  | some l =>
    cases set with
    | true => rw [finallyDismiss_showError] at h; exact Or.inl h
    | false =>
      rw [finallyDismiss_some_false] at h
      rcases List.mem_append.1 h with h | h
      · exact Or.inl h
      · exact Or.inr ⟨rfl, l, rfl, List.mem_singleton.1 h⟩

theorem mem_attemptStart_elim (cfg : Config) (u m : String) (b : Option JSValue)
    (ps : List (String × String)) (rs : RunState) (ev : ToastEvent)
    (h : ev ∈ (attemptStart cfg u m b ps rs).trace) :
    ev ∈ rs.trace ∨
      (cfg.showLoadingToast = true ∧ ev = ToastEvent.loading rs.nextToastId) := by
  by_cases hl : cfg.showLoadingToast
  · simp [attemptStart, hl] at h
    rcases h with h | h
    · exact Or.inl h
    · exact Or.inr ⟨hl, h⟩
  · simp only [Bool.not_eq_true] at hl
    simp [attemptStart, hl] at h
    exact Or.inl h

theorem mem_attemptStart_of_mem (cfg : Config) (u m : String) (b : Option JSValue)
    (ps : List (String × String)) (rs : RunState) (ev : ToastEvent)
    (h : ev ∈ rs.trace) : ev ∈ (attemptStart cfg u m b ps rs).trace := by
  simp only [attemptStart]
  split <;> simp [h]

theorem mem_settleFailure_elim (cfg : Config) (lid : Option Nat) (e : APIError)
    (rs : RunState) (ev : ToastEvent)
    (h : ev ∈ (settleFailure cfg lid e rs).2.trace) :
    ev ∈ rs.trace ∨
      (cfg.showErrorToast = true ∧
        ev = ToastEvent.error lid (jsOr (some e.message) (.str "An error occurred"))) ∨
      (cfg.showErrorToast = false ∧ ∃ l, lid = some l ∧ ev = ToastEvent.dismiss l) := by
  simp only [settleFailure, applyFinally] at h
  rcases mem_finallyDismiss_elim ev lid cfg.showErrorToast _ h with h | ⟨hset, l, hl, hev⟩
  · by_cases hset : cfg.showErrorToast
    · simp only [hset, if_true] at h
      rcases List.mem_append.1 h with h | h
      · exact Or.inl h
      · exact Or.inr (Or.inl ⟨hset, List.mem_singleton.1 h⟩)
    · simp only [Bool.not_eq_true] at hset
      simp only [hset, Bool.false_eq_true, if_false] at h
      cases hlid : lid with
      | none => rw [hlid] at h; exact Or.inl h
      | some l =>
        rw [hlid] at h
        rcases List.mem_append.1 h with h | h
        · exact Or.inl h
        · exact Or.inr (Or.inr ⟨hset, l, rfl, List.mem_singleton.1 h⟩)
  · exact Or.inr (Or.inr ⟨hset, l, hl, hev⟩)

theorem chain_error_toast_free (cfg : Config) (captured : Nat) (u m : String)
    (b : Option JSValue) (ps : List (String × String)) (resp : Nat → FetchOutcome)
    (hse : cfg.showErrorToast = false) :
    ∀ fuel attempt rs oid msg,
      ToastEvent.error oid msg ∈ (executeChain cfg captured u m b ps resp attempt fuel rs).2.trace →
      ToastEvent.error oid msg ∈ rs.trace := by
  intro fuel
  induction fuel with
  | zero => intro _ _ _ _ h; exact h
  | succ f ih =>
    intro attempt rs oid msg hmem
    simp only [executeChain] at hmem
    cases hout : attemptOutcome (resp attempt) with
    | ok payload =>
      simp only [hout] at hmem
      simp only [applyFinally, successState] at hmem
      rcases mem_finallyDismiss_elim _ _ _ _ hmem with h | ⟨_, l, _, hev⟩
      · rcases mem_attemptStart_elim cfg u m b ps rs _ h with h | ⟨_, hev⟩
        · exact h
        · cases hev
      · cases hev
    | error e =>
      simp only [hout] at hmem
      by_cases hg : (isRetryable e.status && decide (captured < cfg.maxRetries)) = true
      · simp only [hg, if_true] at hmem
        split at hmem
        next rs4 heq =>
          simp only [] at hmem
          rw [← congrArg (fun z => z.2.trace) heq] at hmem
          have h := ih (attempt + 1) _ oid msg hmem
          simp only [retryState, errorState] at h
          rcases mem_attemptStart_elim cfg u m b ps rs _ h with h | ⟨_, hev⟩
          · exact h
          · cases hev
        next p rs4 heq =>
          simp only [applyFinally] at hmem
          rcases mem_finallyDismiss_elim _ _ _ _ hmem with h | ⟨_, l, _, hev⟩
          · rw [← congrArg (fun z => z.2.trace) heq] at h
            have h := ih (attempt + 1) _ oid msg h
            simp only [retryState, errorState] at h
            rcases mem_attemptStart_elim cfg u m b ps rs _ h with h | ⟨_, hev⟩
            · exact h
            · cases hev
          · cases hev
        next e2 rs4 heq =>
          simp only [applyFinally] at hmem
          rcases mem_finallyDismiss_elim _ _ _ _ hmem with h | ⟨_, l, _, hev⟩
          · rw [← congrArg (fun z => z.2.trace) heq] at h
            have h := ih (attempt + 1) _ oid msg h
            simp only [retryState, errorState] at h
            rcases mem_attemptStart_elim cfg u m b ps rs _ h with h | ⟨_, hev⟩
            · exact h
            · cases hev
          · cases hev
      · simp only [hg, if_false] at hmem
        rcases mem_settleFailure_elim cfg _ e _ _ hmem with h | ⟨hset, hev⟩ | ⟨_, l, _, hev⟩
        · simp only [errorState] at h
          rcases mem_attemptStart_elim cfg u m b ps rs _ h with h | ⟨_, hev⟩
          · exact h
          · cases hev
        · rw [hse] at hset; cases hset
        · cases hev
theorem chain_loading_dismissed (cfg : Config) (captured : Nat) (u m : String)
    (b : Option JSValue) (ps : List (String × String)) (resp : Nat → FetchOutcome)
    (hse : cfg.showErrorToast = false) :
    ∀ fuel attempt rs,
      (executeChain cfg captured u m b ps resp attempt fuel rs).1 ≠ ExecResult.outOfFuel →
      ∀ id, ToastEvent.loading id ∈ (executeChain cfg captured u m b ps resp attempt fuel rs).2.trace →
        ToastEvent.dismiss id ∈ (executeChain cfg captured u m b ps resp attempt fuel rs).2.trace ∨
        ToastEvent.loading id ∈ rs.trace := by
  intro fuel
  induction fuel with
  | zero => intro attempt rs hres; exact absurd rfl hres
  | succ f ih =>
    intro attempt rs hres id hmem
    simp only [executeChain] at hres hmem ⊢
    cases hout : attemptOutcome (resp attempt) with
    | ok payload =>
      simp only [hout] at hres hmem ⊢
      simp only [applyFinally, successState] at hmem ⊢
      rcases mem_finallyDismiss_elim _ _ _ _ hmem with h | ⟨_, l, _, hev⟩
      · rcases mem_attemptStart_elim cfg u m b ps rs _ h with h | ⟨hl, hev⟩
        · exact Or.inr h
        · injection hev with hid
          subst hid
          refine Or.inl ?_
          have hlid : loadingId cfg rs = some rs.nextToastId := by simp [loadingId, hl]
          rw [hse, hlid, finallyDismiss_some_false]
          simp
      · cases hev
    | error e =>
      simp only [hout] at hres hmem ⊢
      by_cases hg : (isRetryable e.status && decide (captured < cfg.maxRetries)) = true
      · simp only [hg, if_true] at hres hmem ⊢
        split at hmem
        next rs4 heq =>
          rw [heq] at hres
          simp at hres
        next p rs4 heq =>
          simp only [] at hmem ⊢
          simp only [applyFinally] at hmem ⊢
          rcases mem_finallyDismiss_elim _ _ _ _ hmem with h | ⟨_, l, _, hev⟩
          · have hinner := ih (attempt + 1) _ (by rw [heq]; simp) id
              (by rw [← congrArg (fun z => z.2.trace) heq] at h; exact h)
            rw [congrArg (fun z => z.2.trace) heq] at hinner
            rcases hinner with hd | hloaded
            · exact Or.inl (mem_finallyDismiss _ _ _ _ hd)
            · simp only [retryState, errorState] at hloaded
              rcases mem_attemptStart_elim cfg u m b ps rs _ hloaded with h2 | ⟨hl, hev⟩
              · exact Or.inr h2
              · injection hev with hid
                subst hid
                refine Or.inl ?_
                have hlid : loadingId cfg rs = some rs.nextToastId := by simp [loadingId, hl]
                rw [hse, hlid, finallyDismiss_some_false]
                simp
          · cases hev
        next e2 rs4 heq =>
          simp only [] at hmem ⊢
          simp only [applyFinally] at hmem ⊢
          rcases mem_finallyDismiss_elim _ _ _ _ hmem with h | ⟨_, l, _, hev⟩
          · have hinner := ih (attempt + 1) _ (by rw [heq]; simp) id
              (by rw [← congrArg (fun z => z.2.trace) heq] at h; exact h)
            rw [congrArg (fun z => z.2.trace) heq] at hinner
            rcases hinner with hd | hloaded
            · exact Or.inl (mem_finallyDismiss _ _ _ _ hd)
            · simp only [retryState, errorState] at hloaded
              rcases mem_attemptStart_elim cfg u m b ps rs _ hloaded with h2 | ⟨hl, hev⟩
              · exact Or.inr h2
              · injection hev with hid
                subst hid
                refine Or.inl ?_
                have hlid : loadingId cfg rs = some rs.nextToastId := by simp [loadingId, hl]
                rw [hse, hlid, finallyDismiss_some_false]
                simp
          · cases hev
      · simp only [hg, if_false] at hres hmem ⊢
        rcases mem_settleFailure_elim cfg _ e _ _ hmem with h | ⟨hset, hev⟩ | ⟨_, l, _, hev⟩
        · simp only [errorState] at h
          rcases mem_attemptStart_elim cfg u m b ps rs _ h with h | ⟨hl, hev⟩
          · exact Or.inr h
          · injection hev with hid
            subst hid
            refine Or.inl ?_
            have hlid : loadingId cfg rs = some rs.nextToastId := by simp [loadingId, hl]
            simp only [settleFailure, applyFinally]
            apply mem_finallyDismiss
            rw [hse, hlid]
            simp
        · rw [hse] at hset; cases hset
        · cases hev

theorem chain_dismiss_free (cfg : Config) (captured : Nat) (u m : String)
    (b : Option JSValue) (ps : List (String × String)) (resp : Nat → FetchOutcome)
    (hse : cfg.showErrorToast = true) :
    ∀ fuel attempt rs id,
      ToastEvent.dismiss id ∈ (executeChain cfg captured u m b ps resp attempt fuel rs).2.trace →
      ToastEvent.dismiss id ∈ rs.trace := by
  intro fuel
  induction fuel with
  | zero => intro _ _ _ h; exact h
  | succ f ih =>
    intro attempt rs id hmem
    simp only [executeChain] at hmem
    cases hout : attemptOutcome (resp attempt) with
    | ok payload =>
      simp only [hout] at hmem
      simp only [applyFinally, successState, hse, finallyDismiss_showError] at hmem
      rcases mem_attemptStart_elim cfg u m b ps rs _ hmem with h | ⟨_, hev⟩
      · exact h
      · cases hev
    | error e =>
      simp only [hout] at hmem
      by_cases hg : (isRetryable e.status && decide (captured < cfg.maxRetries)) = true
      · simp only [hg, if_true] at hmem
        split at hmem
        next rs4 heq =>
          simp only [] at hmem
          rw [← congrArg (fun z => z.2.trace) heq] at hmem
          have h := ih (attempt + 1) _ id hmem
          simp only [retryState, errorState] at h
          rcases mem_attemptStart_elim cfg u m b ps rs _ h with h | ⟨_, hev⟩
          · exact h
          · cases hev
        next p rs4 heq =>
          simp only [applyFinally, hse, finallyDismiss_showError] at hmem
          rw [← congrArg (fun z => z.2.trace) heq] at hmem
          have h := ih (attempt + 1) _ id hmem
          simp only [retryState, errorState] at h
          rcases mem_attemptStart_elim cfg u m b ps rs _ h with h | ⟨_, hev⟩
          · exact h
          · cases hev
        next e2 rs4 heq =>
          simp only [applyFinally, hse, finallyDismiss_showError] at hmem
          rw [← congrArg (fun z => z.2.trace) heq] at hmem
          have h := ih (attempt + 1) _ id hmem
          simp only [retryState, errorState] at h
          rcases mem_attemptStart_elim cfg u m b ps rs _ h with h | ⟨_, hev⟩
          · exact h
          · cases hev
      · simp only [hg, if_false] at hmem
        rcases mem_settleFailure_elim cfg _ e _ _ hmem with h | ⟨_, hev⟩ | ⟨hset, l, _, hev⟩
        · simp only [errorState] at h
          rcases mem_attemptStart_elim cfg u m b ps rs _ h with h | ⟨_, hev⟩
          · exact h
          · cases hev
        · cases hev
        · rw [hse] at hset; cases hset

theorem chain_ok_error_toast_free (cfg : Config) (captured : Nat) (u m : String)
    (b : Option JSValue) (ps : List (String × String)) (resp : Nat → FetchOutcome) :
    ∀ fuel attempt rs p oid msg,
      (executeChain cfg captured u m b ps resp attempt fuel rs).1 = ExecResult.ok p →
      ToastEvent.error oid msg ∈ (executeChain cfg captured u m b ps resp attempt fuel rs).2.trace →
      ToastEvent.error oid msg ∈ rs.trace := by
  intro fuel
  induction fuel with
  | zero => intro attempt rs p oid msg hres; simp [executeChain] at hres
  | succ f ih =>
    intro attempt rs p oid msg hres hmem
    simp only [executeChain] at hres hmem
    cases hout : attemptOutcome (resp attempt) with
    | ok payload =>
      simp only [hout] at hres hmem
      simp only [applyFinally, successState] at hmem
      rcases mem_finallyDismiss_elim _ _ _ _ hmem with h | ⟨_, l, _, hev⟩
      · rcases mem_attemptStart_elim cfg u m b ps rs _ h with h | ⟨_, hev⟩
        · exact h
        · cases hev
      · cases hev
    | error e =>
      simp only [hout] at hres hmem
      by_cases hg : (isRetryable e.status && decide (captured < cfg.maxRetries)) = true
      · simp only [hg, if_true] at hres hmem
        split at hmem
        next rs4 heq =>
          rw [heq] at hres
          simp at hres
        next p2 rs4 heq =>
          rw [heq] at hres
          have hp : p2 = p := by simpa using hres
          subst hp
          simp only [applyFinally] at hmem
          rcases mem_finallyDismiss_elim _ _ _ _ hmem with h | ⟨_, l, _, hev⟩
          · rw [← congrArg (fun z => z.2.trace) heq] at h
            have h := ih (attempt + 1) _ p2 oid msg (by rw [heq]) h
            simp only [retryState, errorState] at h
            rcases mem_attemptStart_elim cfg u m b ps rs _ h with h | ⟨_, hev⟩
            · exact h
            · cases hev
          · cases hev
        next e2 rs4 heq =>
          rw [heq] at hres
          simp at hres
      · simp only [hg, if_false] at hres
        simp [settleFailure, applyFinally] at hres

/-!
## Settling the claims
-/

/-!
## Concrete environments used by the claims
-/

/-- An endpoint that persistently answers HTTP 503 with a JSON body. -/
def resp503 : Nat → FetchOutcome := fun _ =>
  .response 503 (some "application/json") (.obj [("detail", .str "Service Unavailable")])

/-- An endpoint that persistently answers 200 with a plain-text body. -/
def respTextPlain : Nat → FetchOutcome := fun _ =>
  .response 200 (some "text/plain") (.obj [])

/-- An endpoint that persistently answers 404 with a JSON error body. -/
def resp404 : Nat → FetchOutcome := fun _ =>
  .response 404 (some "application/json")
    (.obj [("detail", .str "Not Found"), ("code", .str "NOT_FOUND")])

/-- The structured error `execute` builds from `resp404`'s body. -/
def err404 : APIError :=
  { message := .str "Not Found", status := some 404, code := some (.str "NOT_FOUND") }

/-- An endpoint whose first answer is a 404 HTML error page and whose second
answer is a JSON 200. -/
def resp404Html : Nat → FetchOutcome := fun n =>
  if n = 0 then .response 404 (some "text/html") (.obj [])
  else .response 200 (some "application/json") (.str "recovered")

/-- An endpoint whose first answer is a plain-text 200 and whose second
answer is a JSON 200. -/
def respPlainThenOk : Nat → FetchOutcome := fun n =>
  if n = 0 then .response 200 (some "text/plain") (.obj [])
  else .response 200 (some "application/json") (.str "ok")

/-- An endpoint that persistently answers 200 with a JSON payload. -/
def respOkJson : Nat → FetchOutcome := fun _ =>
  .response 200 (some "application/json") (.str "payload")

/-- The error thrown when the content-type check fails. -/
def invalidFormatError : APIError :=
  { message := .str "Invalid response format", status := none, code := none }

/-!
## The claims
-/

/-- C1: the claim says a chain against a persistent-503 endpoint performs
exactly `maxRetries + 1` fetch attempts before surfacing the error.  The
code instead never surfaces the error: the retry guard compares the
closure-captured `retryCount` (which stays 0 for a chain started from a
fresh mount) against `maxRetries`, so the guard passes on every attempt and
the chain consumes any amount of fuel, making one fetch attempt per unit,
without ever settling. -/
theorem c1_unbounded_retries_on_persistent_503 :
    ∀ fuel,
      (execute defaultConfig 0 "/api/account" "GET" none [] resp503 initialStore fuel).1
        = ExecResult.outOfFuel ∧
      (execute defaultConfig 0 "/api/account" "GET" none [] resp503 initialStore fuel).2.attempts
        = fuel := by
  intro fuel
  have herr : ∀ n, ∃ e, attemptOutcome (resp503 n) = Except.error e ∧
      isRetryable e.status = true := by
    intro n
    exact ⟨mkHttpError 503 (.obj [("detail", .str "Service Unavailable")]), rfl, by decide⟩
  have h := chain_diverges defaultConfig 0 "/api/account" "GET" none [] resp503
    (by decide) herr fuel 0
    { store := initialStore, trace := [], nextToastId := 0, attempts := 0
      delays := [], requests := [] }
  exact ⟨h.1, by simpa using h.2⟩

/-- C2 counterexample: the claim says an `InvalidFormat` failure (non-JSON
response) is surfaced immediately with no retry.  Against an endpoint whose
first answer is a plain-text 200 and whose second is a JSON 200, the default
executor retries after the `InvalidFormat` failure (two fetch attempts, one
`retryDelay` await) and settles successfully instead of surfacing it. -/
theorem c2_invalid_format_is_retried :
    (execute defaultConfig 0 "/api/bars" "GET" none [] respPlainThenOk initialStore 2).2.attempts = 2 ∧
    (execute defaultConfig 0 "/api/bars" "GET" none [] respPlainThenOk initialStore 2).1
      = ExecResult.ok (.str "ok") ∧
    (execute defaultConfig 0 "/api/bars" "GET" none [] respPlainThenOk initialStore 2).2.delays
      = [1000] := ⟨rfl, rfl, rfl⟩

/-- C2 (amended): a failing first attempt leads to a retry exactly when its
error carries no status code (which covers `NetworkError` and also
`InvalidFormat`) or a status ≥ 500, and the captured retry count is below
`maxRetries`; otherwise — in particular for an `HttpError` with a 4xx
status — the error is surfaced to the caller immediately after the single
attempt. -/
theorem c2_retry_classification (cfg : Config) (captured : Nat) (u m : String)
    (b : Option JSValue) (ps : List (String × String)) (resp : Nat → FetchOutcome)
    (st0 : Store) (fuel : Nat) (e : APIError)
    (hfuel : 2 ≤ fuel)
    (he : attemptOutcome (resp 0) = Except.error e) :
    ((isRetryable e.status = true ∧ captured < cfg.maxRetries) →
      2 ≤ (execute cfg captured u m b ps resp st0 fuel).2.attempts) ∧
    (¬(isRetryable e.status = true ∧ captured < cfg.maxRetries) →
      (execute cfg captured u m b ps resp st0 fuel).1 = ExecResult.raised e ∧
      (execute cfg captured u m b ps resp st0 fuel).2.attempts = 1) := by
  obtain ⟨f, rfl⟩ : ∃ f, fuel = f + 2 := ⟨fuel - 2, by omega⟩
  constructor
  · rintro ⟨hr, hcap⟩
    have hg : (isRetryable e.status && decide (captured < cfg.maxRetries)) = true := by
      simp [hr, hcap]
    simp only [execute, executeChain, he, hg, if_true]
    split
    next rs4 heq =>
      have h := le_trans (chain_attempts_succ cfg captured u m b ps resp (f + 1) 1 _ (by omega))
        (le_of_eq (congrArg (fun z => z.2.attempts) heq))
      simp [retryState, errorState, attemptStart] at h
      simp only []
      omega
    next p rs4 heq =>
      have h := le_trans (chain_attempts_succ cfg captured u m b ps resp (f + 1) 1 _ (by omega))
        (le_of_eq (congrArg (fun z => z.2.attempts) heq))
      simp [retryState, errorState, attemptStart] at h
      simp [applyFinally]
      omega
    next e2 rs4 heq =>
      have h := le_trans (chain_attempts_succ cfg captured u m b ps resp (f + 1) 1 _ (by omega))
        (le_of_eq (congrArg (fun z => z.2.attempts) heq))
      simp [retryState, errorState, attemptStart] at h
      simp [applyFinally]
      omega
  · intro hnot
    have hg : (isRetryable e.status && decide (captured < cfg.maxRetries)) = false := by
      rcases Bool.eq_false_or_eq_true (isRetryable e.status) with h | h
      · simp only [h, Bool.true_and]
        have hc : ¬ captured < cfg.maxRetries := fun hc => hnot ⟨h, hc⟩
        simp [hc]
      · simp [h]
    simp only [execute, executeChain, he, hg, Bool.false_eq_true, if_false]
    constructor
    · simp [settleFailure]
    · simp [settleFailure, applyFinally, errorState, attemptStart]

/-- C2 witness: the amended theorem applied to a 404 JSON failure under the
default configuration: non-retryable, one attempt, surfaced as `err404`. -/
theorem c2_retry_classification_witness :
    attemptOutcome (resp404 0) = Except.error err404 ∧
    (execute defaultConfig 0 "/x" "GET" none [] resp404 initialStore 2).1
      = ExecResult.raised err404 ∧
    (execute defaultConfig 0 "/x" "GET" none [] resp404 initialStore 2).2.attempts = 1 :=
  ⟨rfl,
    (c2_retry_classification defaultConfig 0 "/x" "GET" none [] resp404 initialStore 2 err404
      (by decide) rfl).2 (by decide)⟩
/-!
## First-occurrence characterisation of the URL substitution
-/

theorem startsWith_append_self : ∀ pat b : List Char, startsWith pat (pat ++ b) = true := by
  intro pat
  induction pat with
  | nil => intro b; rfl
  | cons p ps ih => intro b; simp [startsWith, ih]

theorem drop_length_append : ∀ xs ys : List Char, (xs ++ ys).drop xs.length = ys := by
  intro xs
  induction xs with
  | nil => intro ys; rfl
  | cons x xs ih => intro ys; exact ih ys

theorem listReplaceFirst_no_occurrence :
    ∀ (s pat r : List Char), listOccurs s pat = false → listReplaceFirst s pat r = s := by
  intro s
  induction s with
  | nil =>
    intro pat r h
    simp only [listOccurs] at h
    simp [listReplaceFirst, h]
  | cons c rest ih =>
    intro pat r h
    simp only [listOccurs, Bool.or_eq_false_iff] at h
    simp [listReplaceFirst, h.1, ih pat r h.2]

theorem listReplaceFirst_first_occurrence :
    ∀ (a pat btail r : List Char),
      (∀ i, i < a.length → startsWith pat (a.drop i ++ (pat ++ btail)) = false) →
      listReplaceFirst (a ++ (pat ++ btail)) pat r = a ++ (r ++ btail) := by
  intro a
  induction a with
  | nil =>
    intro pat btail r _
    cases pat with
    | nil =>
      cases btail with
      | nil => simp [listReplaceFirst, startsWith]
      | cons c rest => simp [listReplaceFirst, startsWith]
    | cons p ps =>
      have hsw : startsWith (p :: ps) (p :: (ps ++ btail)) = true :=
        startsWith_append_self (p :: ps) btail
      have hdrop : (p :: (ps ++ btail) : List Char).drop (p :: ps).length = btail :=
        drop_length_append (p :: ps) btail
      simp [listReplaceFirst, hsw, hdrop]
  | cons c a' ih =>
    intro pat btail r H
    have h0 : startsWith pat (c :: (a' ++ (pat ++ btail))) = false := by
      have := H 0 (by simp)
      simpa using this
    have H' : ∀ i, i < a'.length → startsWith pat (a'.drop i ++ (pat ++ btail)) = false := by
      intro i hi
      have := H (i + 1) (by simpa using Nat.succ_lt_succ hi)
      simpa using this
    simp only [List.cons_append, listReplaceFirst, List.append_eq]
    rw [h0]
    simp only [Bool.false_eq_true, if_false]
    exact congrArg _ (ih pat btail r H')

theorem resolveUrl_no_occurrence :
    ∀ (ps : List (String × String)) (url : String),
      (∀ kv, kv ∈ ps → listOccurs url.data ((":" ++ kv.1).data) = false) →
      resolveUrl url ps = url := by
  intro ps
  induction ps with
  | nil => intro url _; rfl
  | cons kv rest ih =>
    intro url h
    have h1 : replaceFirst url (":" ++ kv.1) kv.2 = url := by
      simp only [replaceFirst]
      rw [listReplaceFirst_no_occurrence _ _ _ (h kv (List.mem_cons_self _ _))]
    have h2 : resolveUrl url (kv :: rest) = resolveUrl (replaceFirst url (":" ++ kv.1) kv.2) rest := rfl
    rw [h2, h1]
    exact ih url (fun kv' hkv' => h kv' (List.mem_cons_of_mem _ hkv'))

/-- C3 counterexample: the claim says every occurrence of each `:key`
placeholder is replaced.  With the same placeholder twice, only the first
occurrence is replaced (`String.prototype.replace` with a string pattern),
so `/api/items/:id/:id` does not resolve to `/api/items/42/42`. -/
theorem c3_second_occurrence_kept :
    resolveUrl "/api/items/:id/:id" [("id", "42")] = "/api/items/42/:id" ∧
    ("/api/items/42/:id" : String) ≠ "/api/items/42/42" := by
  refine ⟨by decide, by decide⟩

/-- C3 (amended): for each substitution entry only the first occurrence of
the literal `:key` substring is replaced (later occurrences are kept);
placeholders whose key has no entry — more generally, keys with no
occurrence — leave the target unchanged; and the spec's example
`/api/items/:id` with `id = 42` resolves to `/api/items/42`. -/
theorem c3_first_occurrence_substitution :
    (resolveUrl "/api/items/:id" [("id", "42")] = "/api/items/42") ∧
    (∀ (url key value : String) (a btail : List Char),
      url.data = a ++ ((":" ++ key).data ++ btail) →
      (∀ i, i < a.length →
        startsWith (":" ++ key).data (a.drop i ++ ((":" ++ key).data ++ btail)) = false) →
      (resolveUrl url [(key, value)]).data = a ++ (value.data ++ btail)) ∧
    (∀ (url : String) (ps : List (String × String)),
      (∀ kv, kv ∈ ps → listOccurs url.data ((":" ++ kv.1).data) = false) →
      resolveUrl url ps = url) := by
  refine ⟨by decide, ?_, ?_⟩
  · intro url key value a btail hurl H
    have h1 : resolveUrl url [(key, value)] = replaceFirst url (":" ++ key) value := rfl
    rw [h1]
    simp only [replaceFirst]
    rw [hurl]
    exact listReplaceFirst_first_occurrence a ((":" ++ key).data) btail value.data H
  · intro url ps h
    exact resolveUrl_no_occurrence ps url h

/-- C3 witness: the amended theorem applied to the duplicated-placeholder
target (first occurrence replaced, second kept) and to a target without any
matching placeholder (left unchanged). -/
theorem c3_first_occurrence_substitution_witness :
    (resolveUrl "/api/items/:id/:id" [("id", "42")]).data
      = ("/api/items/".data ++ ("42".data ++ "/:id".data)) ∧
    resolveUrl "/api/bars" [("symbol", "AAPL")] = "/api/bars" :=
  ⟨c3_first_occurrence_substitution.2.1 "/api/items/:id/:id" "id" "42"
      "/api/items/".data "/:id".data (by decide) (by decide),
    c3_first_occurrence_substitution.2.2 "/api/bars" [("symbol", "AAPL")] (by decide)⟩
/-- C4: for every call that settles successfully, the store afterwards has
`retryCount = 0`, `error = null`, and the parsed payload both stored as
`data` and returned as the call's result (the `ExecResult.ok` payload). -/
theorem c4_success_resets_state (cfg : Config) (captured : Nat) (u m : String)
    (b : Option JSValue) (ps : List (String × String)) (resp : Nat → FetchOutcome)
    (st0 : Store) (fuel : Nat) (p : JSValue)
    (hres : (execute cfg captured u m b ps resp st0 fuel).1 = ExecResult.ok p) :
    (execute cfg captured u m b ps resp st0 fuel).2.store.data = some p ∧
    (execute cfg captured u m b ps resp st0 fuel).2.store.retryCount = 0 ∧
    (execute cfg captured u m b ps resp st0 fuel).2.store.error = none :=
  chain_ok_store cfg captured u m b ps resp fuel 0 _ p hres

/-- C4 witness: a one-attempt successful call against a JSON 200 endpoint,
started from a dirty store (`retryCount = 2`, a stale error). -/
theorem c4_success_resets_state_witness :
    (execute defaultConfig 2 "/x" "GET" none [] respOkJson
        { data := none, isLoading := true, error := some err404, retryCount := 2 } 1).2.store.data
      = some (.str "payload") ∧
    (execute defaultConfig 2 "/x" "GET" none [] respOkJson
        { data := none, isLoading := true, error := some err404, retryCount := 2 } 1).2.store.retryCount = 0 ∧
    (execute defaultConfig 2 "/x" "GET" none [] respOkJson
        { data := none, isLoading := true, error := some err404, retryCount := 2 } 1).2.store.error = none :=
  c4_success_resets_state defaultConfig 2 "/x" "GET" none [] respOkJson
    { data := none, isLoading := true, error := some err404, retryCount := 2 } 1
    (.str "payload") rfl

/-- C5 counterexample: the claim says every call receiving an HTTP 404
performs zero retries and surfaces the error immediately.  A 404 whose body
is an HTML error page fails the content-type check first, so the thrown
error has no status and is retried: two fetch attempts, one `retryDelay`,
and no error surfaced at all (the second attempt succeeds). -/
theorem c5_404_html_is_retried :
    (execute defaultConfig 0 "/api/positions" "GET" none [] resp404Html initialStore 2).2.attempts = 2 ∧
    (execute defaultConfig 0 "/api/positions" "GET" none [] resp404Html initialStore 2).1
      = ExecResult.ok (.str "recovered") ∧
    (execute defaultConfig 0 "/api/positions" "GET" none [] resp404Html initialStore 2).2.delays
      = [1000] := ⟨rfl, rfl, rfl⟩

/-- C5 (amended): every call whose first response is a 404 with a JSON
content type performs exactly one fetch attempt, awaits no retry delay, and
immediately raises the structured error built from the body; a 404 with a
non-JSON content type is instead classified as `InvalidFormat` (no status)
and qualifies for retry. -/
theorem c5_404_json_no_retry (cfg : Config) (captured : Nat) (u m : String)
    (b : Option JSValue) (ps : List (String × String)) (resp : Nat → FetchOutcome)
    (st0 : Store) (fuel : Nat) (ct : String) (body : JSValue)
    (hresp : resp 0 = FetchOutcome.response 404 (some ct) body)
    (hct : isJsonContentType (some ct) = true)
    (hfuel : 1 ≤ fuel) :
    (execute cfg captured u m b ps resp st0 fuel).1 = ExecResult.raised (mkHttpError 404 body) ∧
    (execute cfg captured u m b ps resp st0 fuel).2.attempts = 1 ∧
    (execute cfg captured u m b ps resp st0 fuel).2.delays = [] := by
  obtain ⟨f, rfl⟩ : ∃ f, fuel = f + 1 := ⟨fuel - 1, by omega⟩
  have hout : attemptOutcome (resp 0) = Except.error (mkHttpError 404 body) := by
    rw [hresp]
    simp only [attemptOutcome, hct]
    rw [if_neg (by simp), if_neg (by omega)]
  have hg : (isRetryable (mkHttpError 404 body).status && decide (captured < cfg.maxRetries))
      = false := by
    simp [mkHttpError, isRetryable]
  simp only [execute, executeChain, hout, hg, Bool.false_eq_true, if_false]
  refine ⟨by simp [settleFailure], ?_, ?_⟩
  · simp [settleFailure, applyFinally, errorState, attemptStart]
  · simp [settleFailure, applyFinally, errorState, attemptStart]

/-- C5 witness: the amended theorem at a JSON 404 under defaults. -/
theorem c5_404_json_no_retry_witness :
    (execute defaultConfig 0 "/x" "GET" none [] resp404 initialStore 3).1
      = ExecResult.raised (mkHttpError 404 (.obj [("detail", .str "Not Found"), ("code", .str "NOT_FOUND")])) ∧
    (execute defaultConfig 0 "/x" "GET" none [] resp404 initialStore 3).2.attempts = 1 ∧
    (execute defaultConfig 0 "/x" "GET" none [] resp404 initialStore 3).2.delays = [] :=
  c5_404_json_no_retry defaultConfig 0 "/x" "GET" none [] resp404 initialStore 3
    "application/json" (.obj [("detail", .str "Not Found"), ("code", .str "NOT_FOUND")])
    rfl (by decide) (by decide)

/-- A chain that settles under no amount of fuel: the executor neither
returns nor raises, however many attempts it is allowed. -/
def neverSettles (cfg : Config) (captured : Nat) (u m : String) (b : Option JSValue)
    (ps : List (String × String)) (resp : Nat → FetchOutcome) (st0 : Store) : Prop :=
  ∀ fuel, (execute cfg captured u m b ps resp st0 fuel).1 = ExecResult.outOfFuel

/-- C6 counterexample: the claim says a call answered with a non-JSON
content type on a 2xx response fails with `InvalidFormat`.  Under the
default configuration the thrown `InvalidFormat` error has no status, so it
is retried — and with the captured retry count stuck below `maxRetries` the
chain never settles, so the call never fails (nor returns) at all. -/
theorem c6_invalid_format_never_surfaces :
    neverSettles defaultConfig 0 "/api/data" "GET" none [] respTextPlain initialStore := by
  intro fuel
  have herr : ∀ n, ∃ e, attemptOutcome (respTextPlain n) = Except.error e ∧
      isRetryable e.status = true := by
    intro n
    exact ⟨invalidFormatError, rfl, rfl⟩
  exact (chain_diverges defaultConfig 0 "/api/data" "GET" none [] respTextPlain
    (by decide) herr fuel 0 _).1

/-- C6 (amended): a non-JSON content type on any response (2xx included)
makes the attempt throw the `InvalidFormat` error and never stores a
payload; but because that error carries no status it qualifies for retry,
so it reaches the caller only when the retry guard denies a retry — i.e.
when the captured retry count has reached `maxRetries` — and in that case
the call raises `InvalidFormat` after a single attempt with `data`
untouched. -/
theorem c6_invalid_format_raised_when_no_retry (cfg : Config) (captured : Nat)
    (u m : String) (b : Option JSValue) (ps : List (String × String))
    (resp : Nat → FetchOutcome) (st0 : Store) (fuel : Nat)
    (status : Nat) (ct : Option String) (body : JSValue)
    (hresp : resp 0 = FetchOutcome.response status ct body)
    (hct : isJsonContentType ct = false)
    (hcap : cfg.maxRetries ≤ captured)
    (hfuel : 1 ≤ fuel) :
    (execute cfg captured u m b ps resp st0 fuel).1 = ExecResult.raised invalidFormatError ∧
    (execute cfg captured u m b ps resp st0 fuel).2.store.data = st0.data ∧
    (execute cfg captured u m b ps resp st0 fuel).2.attempts = 1 := by
  obtain ⟨f, rfl⟩ : ∃ f, fuel = f + 1 := ⟨fuel - 1, by omega⟩
  have hout : attemptOutcome (resp 0) = Except.error invalidFormatError := by
    rw [hresp]
    simp [attemptOutcome, hct, invalidFormatError]
  have hg : (isRetryable invalidFormatError.status && decide (captured < cfg.maxRetries))
      = false := by
    have : ¬ captured < cfg.maxRetries := by omega
    simp [this]
  simp only [execute, executeChain, hout, hg, Bool.false_eq_true, if_false]
  refine ⟨by simp [settleFailure], ?_, ?_⟩
  · simp [settleFailure, applyFinally, errorState, attemptStart]
  · simp [settleFailure, applyFinally, errorState, attemptStart]

/-- C6 witness: with `maxRetries = 0` the retry guard denies the retry, so
the plain-text 200 response surfaces `InvalidFormat` after one attempt and
`data` stays empty. -/
theorem c6_invalid_format_raised_witness :
    (execute { maxRetries := 0 } 0 "/api/data" "GET" none [] respTextPlain initialStore 2).1
      = ExecResult.raised invalidFormatError ∧
    (execute { maxRetries := 0 } 0 "/api/data" "GET" none [] respTextPlain initialStore 2).2.store.data
      = none ∧
    (execute { maxRetries := 0 } 0 "/api/data" "GET" none [] respTextPlain initialStore 2).2.attempts
      = 1 :=
  c6_invalid_format_raised_when_no_retry { maxRetries := 0 } 0 "/api/data" "GET" none []
    respTextPlain initialStore 2 200 (some "text/plain") (.obj [])
    rfl (by decide) (by decide) (by decide)
/-- A JSON error body whose `detail` field is present but empty. -/
def emptyDetailBody : JSValue := .obj [("detail", .str ""), ("code", .str "X")]

/-- C7 counterexample: the claim says the error's message equals the body's
`detail` field, falling back only when it is absent.  With `detail` present
but equal to `""`, the JS `||` falls back anyway: the constructed error
carries the generic message, not the empty `detail`. -/
theorem c7_empty_detail_falls_back :
    getField emptyDetailBody "detail" = some (.str "") ∧
    attemptOutcome (FetchOutcome.response 404 (some "application/json") emptyDetailBody)
      = Except.error { message := .str "An error occurred", status := some 404,
                       code := some (.str "X") } ∧
    ("An error occurred" : String) ≠ "" :=
  ⟨rfl, rfl, by decide⟩

/-- C7 (amended): for every non-2xx JSON response, the constructed
structured error has `status` equal to the HTTP status; its message equals
the body's `detail` field when that field is a truthy value and is the
generic message when `detail` is absent or falsy (e.g. the empty string);
and its code equals the body's `code` field when truthy, defaulting to the
`UNKNOWN_ERROR` sentinel when `code` is absent or falsy. -/
theorem c7_error_fields (status : Nat) (ct : String) (body : JSValue) (e : APIError)
    (hct : isJsonContentType (some ct) = true)
    (hstatus : ¬(200 ≤ status ∧ status ≤ 299))
    (he : attemptOutcome (FetchOutcome.response status (some ct) body) = Except.error e) :
    e.status = some status ∧
    (∀ d, getField body "detail" = some (.str d) → d ≠ "" → e.message = .str d) ∧
    (getField body "detail" = none → e.message = .str "An error occurred") ∧
    (getField body "detail" = some (.str "") → e.message = .str "An error occurred") ∧
    (∀ c, getField body "code" = some (.str c) → c ≠ "" → e.code = some (.str c)) ∧
    (getField body "code" = none → e.code = some (.str "UNKNOWN_ERROR")) ∧
    (getField body "code" = some (.str "") → e.code = some (.str "UNKNOWN_ERROR")) := by
  have hout : attemptOutcome (FetchOutcome.response status (some ct) body)
      = Except.error (mkHttpError status body) := by
    simp only [attemptOutcome, hct]
    rw [if_neg (by simp), if_neg hstatus]
  rw [hout] at he
  injection he with he'
  subst he'
  refine ⟨rfl, ?_, ?_, ?_, ?_, ?_, ?_⟩
  · intro d hd hne
    simp [mkHttpError, jsOr, jsTruthy, hd, hne]
  · intro hd
    simp [mkHttpError, jsOr, hd]
  · intro hd
    simp [mkHttpError, jsOr, jsTruthy, hd]
  · intro c hc hne
    simp [mkHttpError, jsOr, jsTruthy, hc, hne]
  · intro hc
    simp [mkHttpError, jsOr, hc]
  · intro hc
    simp [mkHttpError, jsOr, jsTruthy, hc]

/-- C7 witness: the amended theorem at the 404 body of `resp404`:
truthy `detail` and `code` are taken verbatim. -/
theorem c7_error_fields_witness :
    err404.status = some 404 ∧ err404.message = .str "Not Found" ∧
    err404.code = some (.str "NOT_FOUND") :=
  ⟨(c7_error_fields 404 "application/json"
      (.obj [("detail", .str "Not Found"), ("code", .str "NOT_FOUND")]) err404
      (by decide) (by omega) rfl).1,
    (c7_error_fields 404 "application/json"
      (.obj [("detail", .str "Not Found"), ("code", .str "NOT_FOUND")]) err404
      (by decide) (by omega) rfl).2.1 "Not Found" rfl (by decide),
    (c7_error_fields 404 "application/json"
      (.obj [("detail", .str "Not Found"), ("code", .str "NOT_FOUND")]) err404
      (by decide) (by omega) rfl).2.2.2.2.1 "NOT_FOUND" rfl (by decide)⟩

/-- C8 counterexample: the claim says requests carry same-origin credential
inclusion and the JSON body whenever a body is present.  The issued request
actually carries credentials mode `include` — not `same-origin` — and a
supplied but falsy body (the number 0) is dropped entirely. -/
theorem c8_include_credentials_and_falsy_body :
    (execute defaultConfig 0 "/api/orders" "POST" (some (.num 0)) [] respOkJson
        initialStore 1).2.requests
      = [{ url := "/api/orders", method := "POST",
           contentTypeHeader := "application/json",
           credentials := "include", body := none }] ∧
    (some (JSValue.num 0)).isSome = true ∧
    ("include" : String) ≠ "same-origin" :=
  ⟨rfl, rfl, by decide⟩

/-- C8 (amended): every request issued anywhere in a call chain carries the
caller-supplied method, the JSON content-type header, credentials mode
`include` (credentials attached regardless of origin), the
placeholder-resolved URL, and the JSON body exactly when the supplied body
is truthy (no body when it is absent or falsy). -/
theorem c8_request_shape (cfg : Config) (captured : Nat) (u m : String)
    (b : Option JSValue) (ps : List (String × String)) (resp : Nat → FetchOutcome)
    (st0 : Store) (fuel : Nat) :
    ∀ r ∈ (execute cfg captured u m b ps resp st0 fuel).2.requests,
      r.method = m ∧ r.contentTypeHeader = "application/json" ∧
      r.credentials = "include" ∧ r.body = sentBody b ∧ r.url = resolveUrl u ps := by
  intro r hr
  rcases chain_requests cfg captured u m b ps resp fuel 0 _ r hr with h | h
  · cases h
  · subst h
    exact ⟨rfl, rfl, rfl, rfl, rfl⟩

/-- C8 witness: the single request of a one-attempt POST with a truthy
body and a path parameter. -/
theorem c8_request_shape_witness :
    (builtRequest "/api/orders/:id" "POST" (some (.obj [("qty", .num 1)])) [("id", "7")]).method
      = "POST" ∧
    (builtRequest "/api/orders/:id" "POST" (some (.obj [("qty", .num 1)])) [("id", "7")]).contentTypeHeader
      = "application/json" ∧
    (builtRequest "/api/orders/:id" "POST" (some (.obj [("qty", .num 1)])) [("id", "7")]).credentials
      = "include" ∧
    (builtRequest "/api/orders/:id" "POST" (some (.obj [("qty", .num 1)])) [("id", "7")]).body
      = sentBody (some (.obj [("qty", .num 1)])) ∧
    (builtRequest "/api/orders/:id" "POST" (some (.obj [("qty", .num 1)])) [("id", "7")]).url
      = resolveUrl "/api/orders/:id" [("id", "7")] :=
  c8_request_shape defaultConfig 0 "/api/orders/:id" "POST" (some (.obj [("qty", .num 1)]))
    [("id", "7")] respOkJson initialStore 1 _ (List.mem_singleton.mpr rfl)
/-- `useApi` configured with error toasts off (loading toasts at default). -/
def cfgNoErrorToast : Config := { showErrorToast := false }

/-- C9: with `showErrorToast = false` and `showLoadingToast = true`, a call
that settles by raising creates no error notification anywhere in its toast
trace, and every loading notification it created is dismissed. -/
theorem c9_silent_failure (cfg : Config) (captured : Nat) (u m : String)
    (b : Option JSValue) (ps : List (String × String)) (resp : Nat → FetchOutcome)
    (st0 : Store) (fuel : Nat) (e : APIError)
    (hse : cfg.showErrorToast = false)
    (_hlt : cfg.showLoadingToast = true)
    (hres : (execute cfg captured u m b ps resp st0 fuel).1 = ExecResult.raised e) :
    (∀ oid msg, ToastEvent.error oid msg ∉ (execute cfg captured u m b ps resp st0 fuel).2.trace) ∧
    (∀ id, ToastEvent.loading id ∈ (execute cfg captured u m b ps resp st0 fuel).2.trace →
      ToastEvent.dismiss id ∈ (execute cfg captured u m b ps resp st0 fuel).2.trace) := by
  constructor
  · intro oid msg hmem
    have h := chain_error_toast_free cfg captured u m b ps resp hse fuel 0 _ oid msg hmem
    simp at h
  · intro id hmem
    have hne : (execute cfg captured u m b ps resp st0 fuel).1 ≠ ExecResult.outOfFuel := by
      rw [hres]; simp
    rcases chain_loading_dismissed cfg captured u m b ps resp hse fuel 0 _ hne id hmem with h | h
    · exact h
    · simp at h

/-- C9 witness: a one-attempt 404 failure with error toasts disabled: the
loading toast is dismissed and no error toast appears. -/
theorem c9_silent_failure_witness :
    ToastEvent.dismiss 0
      ∈ (execute cfgNoErrorToast 0 "/x" "GET" none [] resp404 initialStore 1).2.trace ∧
    ToastEvent.error none (.str "Not Found")
      ∉ (execute cfgNoErrorToast 0 "/x" "GET" none [] resp404 initialStore 1).2.trace :=
  ⟨(c9_silent_failure cfgNoErrorToast 0 "/x" "GET" none [] resp404 initialStore 1 err404
      rfl rfl rfl).2 0 (List.mem_cons_self _ _),
    (c9_silent_failure cfgNoErrorToast 0 "/x" "GET" none [] resp404 initialStore 1 err404
      rfl rfl rfl).1 none (.str "Not Found")⟩

/-- C10: on a successful call with both toast options enabled (the
defaults), the loading toast created at the start of the call stays in the
trace while no dismissal and no error notification ever happens: dismissal
on completion occurs only when `showErrorToast` is disabled. -/
theorem c10_success_keeps_loading_toast (cfg : Config) (captured : Nat) (u m : String)
    (b : Option JSValue) (ps : List (String × String)) (resp : Nat → FetchOutcome)
    (st0 : Store) (fuel : Nat) (p : JSValue)
    (hlt : cfg.showLoadingToast = true)
    (hse : cfg.showErrorToast = true)
    (hres : (execute cfg captured u m b ps resp st0 fuel).1 = ExecResult.ok p) :
    ToastEvent.loading 0 ∈ (execute cfg captured u m b ps resp st0 fuel).2.trace ∧
    (∀ id, ToastEvent.dismiss id ∉ (execute cfg captured u m b ps resp st0 fuel).2.trace) ∧
    (∀ oid msg, ToastEvent.error oid msg ∉ (execute cfg captured u m b ps resp st0 fuel).2.trace) := by
  refine ⟨?_, ?_, ?_⟩
  · cases fuel with
    | zero => simp [execute, executeChain] at hres
    | succ f =>
      simp only [execute, executeChain] at hres ⊢
      cases hout : attemptOutcome (resp 0) with
      | ok payload =>
        simp only [hout] at hres ⊢
        simp only [applyFinally, successState]
        apply mem_finallyDismiss
        simp [attemptStart, hlt]
      | error e =>
        simp only [hout] at hres ⊢
        by_cases hg : (isRetryable e.status && decide (captured < cfg.maxRetries)) = true
        · simp only [hg, if_true] at hres ⊢
          split at hres
          next rs4 heq => simp at hres
          next p2 rs4 heq =>
            simp only [applyFinally]
            apply mem_finallyDismiss
            rw [← congrArg (fun z => z.2.trace) heq]
            apply chain_trace_mono
            simp [retryState, errorState, attemptStart, hlt]
          next e2 rs4 heq => simp at hres
        · simp only [hg, if_false] at hres
          simp [settleFailure] at hres
  · intro id hmem
    have h := chain_dismiss_free cfg captured u m b ps resp hse fuel 0 _ id hmem
    simp at h
  · intro oid msg hmem
    have h := chain_ok_error_toast_free cfg captured u m b ps resp fuel 0 _ p oid msg hres hmem
    simp at h

/-- C10 witness: a one-attempt success under the default configuration. -/
theorem c10_success_keeps_loading_toast_witness :
    ToastEvent.loading 0
      ∈ (execute defaultConfig 0 "/x" "GET" none [] respOkJson initialStore 1).2.trace ∧
    ToastEvent.dismiss 0
      ∉ (execute defaultConfig 0 "/x" "GET" none [] respOkJson initialStore 1).2.trace ∧
    ToastEvent.error none (.str "An error occurred")
      ∉ (execute defaultConfig 0 "/x" "GET" none [] respOkJson initialStore 1).2.trace :=
  ⟨(c10_success_keeps_loading_toast defaultConfig 0 "/x" "GET" none [] respOkJson
      initialStore 1 (.str "payload") rfl rfl rfl).1,
    (c10_success_keeps_loading_toast defaultConfig 0 "/x" "GET" none [] respOkJson
      initialStore 1 (.str "payload") rfl rfl rfl).2.1 0,
    (c10_success_keeps_loading_toast defaultConfig 0 "/x" "GET" none [] respOkJson
      initialStore 1 (.str "payload") rfl rfl rfl).2.2 none (.str "An error occurred")⟩

end UseApi
